import Mathlib

/-!
Verification of the beamline-caf execution-worker core against its
specification.

The definitions below are a shallow embedding of the C++ sources of the
worker (`processor/include/beamline/worker/core.hpp`,
`result_converter.hpp`, `retry_policy.hpp`, `timeout_enforcement.hpp`,
the pool/executor actor implementation, the FS block handlers,
`sandbox.cpp` and the PII filter in `observability.cpp`).

Modelling conventions:

* `std::unordered_map<std::string, std::string>` is modelled as an
  association list `List (String × String)`; key lookup (`count` / `at` /
  `find`) is `List.lookup`.  All maps built by the modelled code use
  pairwise-distinct literal keys, so the representation is faithful.
* C++ signed 64-bit (`int64_t`) arithmetic is modelled on `Int`, with
  wraparound in the two complement sense (`wrap64`) applied exactly where the source
  performs an `int64_t` multiplication or shift that can overflow.
  (Signed overflow is undefined behaviour in C++; the wraparound model is
  what the produced code does on the targeted platforms.)
* Feature flags (`FeatureFlags::is_*_enabled`, read from the process
  environment) are passed as explicit `Bool` parameters, one snapshot per
  modelled call.
* Wall-clock readings, filesystem contents and the outcome of the
  asynchronous write/read work are supplied by explicit environment
  records (`ExecEnv`, `FsEnv`); the deterministic control flow around
  them is translated from the source line by line.
-/

namespace BeamlineWorker

/-- Step execution status, `core.hpp` `StepStatus`
(success | error | timeout | cancelled). -/
inductive StepStatus where
  | ok
  | error
  | timeout
  | cancelled
deriving DecidableEq

/-- Machine-readable error codes, `core.hpp` `ErrorCode`. -/
inductive ErrorCode where
  | none
  | invalid_input
  | missing_required_field
  | invalid_format
  | execution_failed
  | resource_unavailable
  | permission_denied
  | quota_exceeded
  | network_error
  | connection_timeout
  | http_error
  | internal_error
  | system_overload
  | cancelled_by_user
  | cancelled_by_timeout
deriving DecidableEq

/-- Correlation metadata, `core.hpp` `ResultMetadata`. -/
structure ResultMetadata where
  trace_id : String := ""
  run_id : String := ""
  flow_id : String := ""
  step_id : String := ""
  tenant_id : String := ""
deriving DecidableEq

/-- Execution context of a step, `core.hpp` `BlockContext`. -/
structure BlockContext where
  tenant_id : String := ""
  trace_id : String := ""
  run_id : String := ""
  flow_id : String := ""
  step_id : String := ""
  sandbox : Bool := false
  rbac_scopes : List String := []
deriving DecidableEq

/-- One unit of work, `core.hpp` `StepRequest`. -/
structure StepRequest where
  type : String := ""
  inputs : List (String × String) := []
  resources : List (String × String) := []
  timeout_ms : Int := 30000
  retry_count : Int := 3
  guardrails : List (String × String) := []
deriving DecidableEq

/-- Unified result type, `core.hpp` `StepResult`.  Field defaults are the
C++ member initialisers of the default constructor. -/
structure StepResult where
  status : StepStatus := .ok
  error_code : ErrorCode := .none
  outputs : List (String × String) := []
  error_message : String := ""
  metadata : ResultMetadata := {}
  latency_ms : Int := 0
  retries_used : Int := 0
deriving DecidableEq

/-- Factory `StepResult::success`, `core.hpp`. -/
def StepResult.success (meta : ResultMetadata) (outputs : List (String × String))
    (latency_ms : Int) : StepResult :=
  { status := .ok, error_code := .none, metadata := meta, outputs := outputs,
    latency_ms := latency_ms }

/-- Factory `StepResult::error_result`, `core.hpp`. -/
def StepResult.error_result (code : ErrorCode) (message : String)
    (meta : ResultMetadata) (latency_ms : Int) : StepResult :=
  { status := .error, error_code := code, error_message := message,
    metadata := meta, latency_ms := latency_ms }

/-- Factory `StepResult::timeout_result`, `core.hpp`. -/
def StepResult.timeout_result (meta : ResultMetadata) (latency_ms : Int) : StepResult :=
  { status := .timeout, error_code := .cancelled_by_timeout, metadata := meta,
    latency_ms := latency_ms }

/-- Factory `StepResult::cancelled_result`, `core.hpp`. -/
def StepResult.cancelled_result (meta : ResultMetadata) (latency_ms : Int) : StepResult :=
  { status := .cancelled, error_code := .cancelled_by_user, metadata := meta,
    latency_ms := latency_ms }

/-- Helper `BlockExecutor::metadata_from_context`, `core.hpp`. -/
def metadata_from_context (ctx : BlockContext) : ResultMetadata :=
  { trace_id := ctx.trace_id, run_id := ctx.run_id, flow_id := ctx.flow_id,
    step_id := ctx.step_id, tenant_id := ctx.tenant_id }

/-! ### Result converter, `result_converter.hpp` -/

/-- `ResultConverter::status_to_string`.  The C++ `default:` arm is
unreachable for the closed enum and is therefore not modelled. -/
def status_to_string : StepStatus → String
  | .ok => "success"
  | .error => "error"
  | .timeout => "timeout"
  | .cancelled => "cancelled"

/-- `ResultConverter::string_to_status`; unknown strings default to
`StepStatus::error`. -/
def string_to_status (status_str : String) : StepStatus :=
  if status_str = "success" then .ok
  else if status_str = "error" then .error
  else if status_str = "timeout" then .timeout
  else if status_str = "cancelled" then .cancelled
  else .error

/-- `ResultConverter::error_code_to_string`.  The C++ `default:` arm is
unreachable for the closed enum. -/
def error_code_to_string : ErrorCode → String
  | .none => "NONE"
  | .invalid_input => "INVALID_INPUT"
  | .missing_required_field => "MISSING_REQUIRED_FIELD"
  | .invalid_format => "INVALID_FORMAT"
  | .execution_failed => "EXECUTION_FAILED"
  | .resource_unavailable => "RESOURCE_UNAVAILABLE"
  | .permission_denied => "PERMISSION_DENIED"
  | .quota_exceeded => "QUOTA_EXCEEDED"
  | .network_error => "NETWORK_ERROR"
  | .connection_timeout => "CONNECTION_TIMEOUT"
  | .http_error => "HTTP_ERROR"
  | .internal_error => "INTERNAL_ERROR"
  | .system_overload => "SYSTEM_OVERLOAD"
  | .cancelled_by_user => "CANCELLED_BY_USER"
  | .cancelled_by_timeout => "CANCELLED_BY_TIMEOUT"

/-- `ResultConverter::to_exec_result_json`: the wire record, modelled as the
list of key/value pairs the C++ code inserts into the `unordered_map` (all
inserted keys are pairwise distinct literals). -/
def to_exec_result_json (result : StepResult) (assignment_id request_id provider_id
    job_type : String) : List (String × String) :=
  [("version", "1"),
   ("assignment_id", assignment_id),
   ("request_id", request_id),
   ("status", status_to_string result.status),
   ("provider_id", provider_id),
   ("job", "\x7b\"type\":\"" ++ job_type ++ "\"\x7d"),
   ("latency_ms", toString result.latency_ms),
   ("cost", "0.0")]
  ++ (if result.metadata.trace_id ≠ "" then [("trace_id", result.metadata.trace_id)] else [])
  ++ (if result.metadata.run_id ≠ "" then [("run_id", result.metadata.run_id)] else [])
  ++ (if result.metadata.tenant_id ≠ "" then [("tenant_id", result.metadata.tenant_id)] else [])
  ++ (if result.status = .error then
        ("error_code", error_code_to_string result.error_code)
        :: (if result.error_message ≠ "" then [("error_message", result.error_message)] else [])
      else [])

/-- `ResultConverter::validate_result`.  The initial trace/flow check in
the source only guards a comment and returns nothing; the checks that
decide the return value are modelled. -/
def validate_result (r : StepResult) : Bool :=
  if r.status = .ok ∧ r.error_code ≠ .none then false
  else if r.status = .error ∧ r.error_code = .none then false
  else if r.latency_ms < 0 then false
  else true

/-- The step-result invariants of spec section 3, written from the words of the spec (for the refinement comparison in claim C4): `status=ok ⇒
error_code=none`; `status∈{error,timeout,cancelled} ⇒ error_code≠none`;
`timeout ⇒ error_code=cancelled_by_timeout`; `cancelled ⇒
error_code=cancelled_by_user`; `latency_ms ≥ 0`. -/
def spec_step_result_invariants (r : StepResult) : Bool :=
  decide ((r.status = .ok → r.error_code = .none) ∧
    ((r.status = .error ∨ r.status = .timeout ∨ r.status = .cancelled) →
      r.error_code ≠ .none) ∧
    (r.status = .timeout → r.error_code = .cancelled_by_timeout) ∧
    (r.status = .cancelled → r.error_code = .cancelled_by_user) ∧
    0 ≤ r.latency_ms)

/-! ### String helpers

`std::string::find(needle) == 0` is a prefix test; `find(needle) !=
std::string::npos` is a substring test.  Both are modelled on character
lists. -/

/-- Character-list prefix test (`std::string::find(needle) == 0`). -/
def isPrefixOfChars : List Char → List Char → Bool
  | [], _ => true
  | _ :: _, [] => false
  | a :: as, b :: bs => a = b && isPrefixOfChars as bs

/-- Character-list substring test at any position
(`std::string::find(needle) != std::string::npos`). -/
def containsChars (needle : List Char) : List Char → Bool
  | [] => isPrefixOfChars needle []
  | c :: rest => isPrefixOfChars needle (c :: rest) || containsChars needle rest

/-- String substring test (`hay.find(needle) != std::string::npos`). -/
def containsSubstr (hay needle : String) : Bool :=
  containsChars needle.data hay.data

/-- String prefix test (`hay.find(needle) == 0`). -/
def startsWithStr (hay needle : String) : Bool :=
  isPrefixOfChars needle.data hay.data

/-! ### Retry policy, `retry_policy.hpp` -/

/-- Truncation of a mathematical integer, in the two complement sense, to a signed
64-bit value (the wraparound behaviour of `int64_t` arithmetic). -/
def wrap64 (x : Int) : Int := (x + 2 ^ 63) % 2 ^ 64 - 2 ^ 63

/-- Truncation, in the two complement sense, to a signed 32-bit value (`int`). -/
def wrap32 (x : Int) : Int := (x + 2 ^ 31) % 2 ^ 32 - 2 ^ 31

/-- `RetryPolicy::Config`, `retry_policy.hpp`, with the C++ default member
initialisers. -/
structure RetryConfig where
  base_delay_ms : Int := 100
  max_delay_ms : Int := 5000
  total_timeout_ms : Int := 30000
  max_retries : Int := 3
deriving DecidableEq

/-- `RetryPolicy::calculate_backoff_delay`.  `advanced_retry` is the
snapshot of `FeatureFlags::is_advanced_retry_enabled()`.  The attempt
index is non-negative throughout the worker, hence `Nat`.  With the flag
off the source computes `100 * (attempt + 1)` in `int` arithmetic; with
the flag on it computes `base_delay_ms * (1LL << attempt)` in `int64_t`
arithmetic, so both products are wrapped at their C++ width. -/
def calculate_backoff_delay (advanced_retry : Bool) (cfg : RetryConfig)
    (attempt : Nat) : Int :=
  if advanced_retry = false then
    wrap32 (100 * ((attempt : Int) + 1))
  else
    min (wrap64 (cfg.base_delay_ms * wrap64 ((2 : Int) ^ attempt))) cfg.max_delay_ms

/-- `RetryPolicy::is_retryable`.  The first two branches replicate the
`http_status_code > 0` block of the source: `4xx` is terminal, `5xx` is
retryable, any other positive status falls through to the error-code
switch. -/
def is_retryable (advanced_retry : Bool) (error_code : ErrorCode)
    (http_status_code : Int) : Bool :=
  if advanced_retry = false then true
  else if 400 ≤ http_status_code ∧ http_status_code < 500 then false
  else if 500 ≤ http_status_code then true
  else
    match error_code with
    | .network_error | .connection_timeout => true
    | .invalid_input | .missing_required_field | .invalid_format => false
    | .permission_denied => false
    | .execution_failed | .resource_unavailable => true
    | .internal_error | .system_overload => true
    | .cancelled_by_user | .cancelled_by_timeout => false
    | _ => true

/-- `RetryPolicy::is_budget_exhausted`. -/
def is_budget_exhausted (advanced_retry : Bool) (cfg : RetryConfig)
    (total_elapsed_ms : Int) (attempt : Nat) : Bool :=
  if advanced_retry = false then false
  else if cfg.total_timeout_ms ≤ total_elapsed_ms then true
  else if cfg.total_timeout_ms ≤
      total_elapsed_ms + calculate_backoff_delay advanced_retry cfg attempt then true
  else false

/-! ### Timeout enforcement, `timeout_enforcement.hpp` -/

/-- `TimeoutEnforcement::get_fs_timeout_ms`; `complete_timeout` is the
snapshot of `FeatureFlags::is_complete_timeout_enabled()`. -/
def get_fs_timeout_ms (complete_timeout : Bool) (operation_type : String) : Int :=
  if complete_timeout = false then 0
  else if operation_type = "read" ∨ operation_type = "fs.blob_get" then 5000
  else if operation_type = "write" ∨ operation_type = "fs.blob_put" then 10000
  else if operation_type = "delete" then 3000
  else 5000

/-- `TimeoutEnforcement::get_http_connection_timeout_ms`. -/
def get_http_connection_timeout_ms (complete_timeout : Bool) : Int :=
  if complete_timeout = false then 0 else 5000

/-- `TimeoutEnforcement::get_http_total_timeout_ms`. -/
def get_http_total_timeout_ms (complete_timeout : Bool) (request_timeout_ms : Int) : Int :=
  if complete_timeout = false then request_timeout_ms
  else get_http_connection_timeout_ms complete_timeout + request_timeout_ms

/-! ### Executor stage, `ExecutorActorState` (worker actor translation unit)

`execute_with_retry` wraps `execute_single_attempt` (which calls the
block handler through `executor_->execute(req)` and stamps the measured
latency onto a returned result) in the retry loop.  The handler call and
the wall clock are abstracted by `ExecEnv`: `attemptResult i` is the
`caf::expected<StepResult>` produced by the handler on attempt `i`
(`Option.none` models a raw caf error), and `attemptDuration i` is the
wall-clock milliseconds attempt `i` takes.  Backoff sleeps are assumed to
take exactly their requested duration. -/

/-- Outcome oracle for the handler invocations and the clock of the executor. -/
structure ExecEnv where
  attemptResult : Nat → Option StepResult
  attemptDuration : Nat → Int

/-- Model of `std::stoi` under the executor catch-all that zeroes the status:
parse an optional-signed decimal prefix after whitespace; any parse or
`int`-range failure yields 0. -/
def stoiOrZero (s : String) : Int :=
  let cs := s.data.dropWhile fun c =>
    c = ' ' ∨ c = '\t' ∨ c = '\n' ∨ c = '\r' ∨ c = '\x0b' ∨ c = '\x0c'
  let signed : Int × List Char :=
    match cs with
    | '-' :: rest => (-1, rest)
    | '+' :: rest => (1, rest)
    | rest => (1, rest)
  let digits := signed.2.takeWhile Char.isDigit
  if digits = [] then 0
  else
    let v : Int := signed.1 * digits.foldl (fun acc c => acc * 10 + ((c.toNat : Int) - 48)) 0
    if v < -2147483648 ∨ 2147483647 < v then 0 else v

/-- `RetryPolicy::Config` as initialised at the top of
`ExecutorActorState::execute_with_retry`. -/
def retryConfigFor (req : StepRequest) : RetryConfig :=
  { base_delay_ms := 100, max_delay_ms := 5000,
    total_timeout_ms := req.timeout_ms, max_retries := req.retry_count }

/-- One iteration of the `for (attempt = 0; attempt <= max_retries; ...)`
loop of `ExecutorActorState::execute_with_retry`, entered with the loop
guard already satisfied.  `fuel` is `max_retries + 1 - attempt` and only
bounds the structural recursion; the recursive call is guarded by the
own `attempt < max_retries` test of the source.  State threaded through the
loop: `elapsed` (milliseconds since `total_start_time`), `finalResult`
(the C++ local `final_result`, default-constructed before the loop), and
`httpStatus` (the C++ local `http_status_code`). -/
def executeWithRetryLoop (advanced_retry : Bool) (req : StepRequest)
    (cfg : RetryConfig) (env : ExecEnv) :
    Nat → Nat → Int → StepResult → Int → StepResult
  | 0, _, _, finalResult, _ => finalResult
  | fuel + 1, attempt, elapsed, finalResult, httpStatus =>
    if is_budget_exhausted advanced_retry cfg elapsed attempt then
      { finalResult with
        retries_used := (attempt : Int)
        status := .timeout
        error_code := .cancelled_by_timeout
        error_message := "Retry budget exhausted: total timeout exceeded" }
    else
      let dur := env.attemptDuration attempt
      let elapsedAfter := elapsed + dur
      let tail := fun (fr : StepResult) (hs : Int) =>
        if (attempt : Int) < cfg.max_retries then
          let backoff_delay := calculate_backoff_delay advanced_retry cfg attempt
          if cfg.total_timeout_ms ≤ elapsedAfter + backoff_delay then
            { fr with
              retries_used := (attempt : Int)
              status := .timeout
              error_code := .cancelled_by_timeout
              error_message :=
                "Retry budget exhausted: backoff delay would exceed total timeout" }
          else
            executeWithRetryLoop advanced_retry req cfg env fuel (attempt + 1)
              (elapsedAfter + backoff_delay) fr hs
        else fr
      match env.attemptResult attempt with
      | some r =>
        let finalResult2 : StepResult :=
          { r with latency_ms := dur, retries_used := (attempt : Int) }
        -- latency stamped by execute_single_attempt; retries_used set by the loop
        let httpStatus2 : Int :=
          if req.type = "http.request" then
            match finalResult2.outputs.lookup "status_code" with
            | some sc => stoiOrZero sc
            | Option.none => httpStatus
          else httpStatus
        if finalResult2.status = .ok then finalResult2
        else if is_retryable advanced_retry finalResult2.error_code httpStatus2 = false then
          finalResult2
        else tail finalResult2 httpStatus2
      | Option.none =>
        if is_retryable advanced_retry .network_error 0 = false then
          { finalResult with
            status := .error
            error_code := .execution_failed
            error_message := "Execution failed and error is non-retryable"
            retries_used := (attempt : Int) }
        else tail finalResult httpStatus

/-- `ExecutorActorState::execute_with_retry`.  `final_result` is
default-constructed (`StepResult{}`), `http_status_code` starts at 0; the
loop runs while `attempt <= max_retries` (never, when `retry_count` is
negative). -/
def execute_with_retry (advanced_retry : Bool) (req : StepRequest)
    (env : ExecEnv) : StepResult :=
  let cfg := retryConfigFor req
  executeWithRetryLoop advanced_retry req cfg env (cfg.max_retries + 1).toNat 0 0 {} 0

/-! ### Pool stage, `PoolActorState` (worker actor translation unit) -/

/-- Pool-local state: `current_load_`, `pending_requests_` (a FIFO of
requester-address / request pairs; addresses are modelled as strings),
`max_concurrency_` and `max_queue_size_`. -/
structure PoolState where
  current_load : Nat := 0
  pending_requests : List (String × StepRequest) := []
  max_concurrency : Nat := 1
  max_queue_size : Nat := 1000
deriving DecidableEq

/-- Observable outcome of one `execute` message to the pool. -/
inductive PoolSubmitOutcome where
  /-- Queue-management rejection branch (queue full): the handler returns
  after logging; the request is destroyed. -/
  | rejected
  /-- Over-capacity branch without rejection: the enqueue
  (`pending_requests_.push(...)`) is commented out in the source, so the
  handler returns with the state unchanged and the request is dropped. -/
  | notEnqueued
  /-- Under-capacity branch: `current_load_` is incremented and
  `process_pending()` runs; the list carries the entries it dispatched. -/
  | started (dispatched : List (String × StepRequest))
deriving DecidableEq

/-- Loop body of `PoolActorState::process_pending`: repeatedly pop the
front entry and dispatch it while `current_load_ < max_concurrency_`.
Returns the remaining queue, the new load and the dispatched entries in
dispatch order. -/
def processPendingAux (maxc : Nat) :
    List (String × StepRequest) → Nat → List (String × StepRequest) →
    List (String × StepRequest) × Nat × List (String × StepRequest)
  | [], load, dispatched => ([], load, dispatched.reverse)
  | e :: rest, load, dispatched =>
    if load < maxc then processPendingAux maxc rest (load + 1) (e :: dispatched)
    else (e :: rest, load, dispatched.reverse)

/-- `PoolActorState::process_pending`. -/
def process_pending (st : PoolState) : PoolState × List (String × StepRequest) :=
  let r := processPendingAux st.max_concurrency st.pending_requests st.current_load []
  ({ st with pending_requests := r.1, current_load := r.2.1 }, r.2.2)

/-- The `execute` message handler of `PoolActorState::make_behavior`
(submit).  `queue_management` is the snapshot of
`FeatureFlags::is_queue_management_enabled()`. -/
def pool_submit (queue_management : Bool) (st : PoolState) (_req : StepRequest) :
    PoolState × PoolSubmitOutcome :=
  if st.max_concurrency ≤ st.current_load then
    if queue_management ∧ 0 < st.max_queue_size ∧
        st.max_queue_size ≤ st.pending_requests.length then
      (st, .rejected)
    else
      (st, .notEnqueued)
  else
    let st1 := { st with current_load := st.current_load + 1 }
    let pp := process_pending st1
    (pp.1, .started pp.2)

/-! ### FS block handlers, `blocks` translation unit
(`FsBlockExecutor` / `FsGetBlockExecutor`)

Filesystem state, the wall clock and the outcome of the (possibly
asynchronous) write/read work are supplied by `FsEnv`; the control flow,
timeout selection, path checks, output construction, exception messages
and error-code mapping are translated from the source. -/

/-- Environment oracle for one FS handler invocation. -/
structure FsEnv where
  /-- Result of `std::filesystem::exists(path)`. -/
  pathExists : Bool := false
  /-- Whether `future.wait_for(fs_timeout_ms)` returns before the deadline
  (`false` models `std::future_status::timeout`). -/
  completesWithinTimeout : Bool := true
  /-- Whether the write/read work itself succeeds once run to completion. -/
  opOk : Bool := true
  /-- Error message produced by the write/read work when it fails (the
  error string of the lambda in the async branch, the thrown message inline). -/
  opErrMsg : String := ""
  /-- Measured latency stamped on the returned result. -/
  latency : Int := 0
  /-- `system_clock` ticks string used for the `created` output. -/
  nowTicks : String := "0"
  /-- File content delivered by a successful read. -/
  fileContent : String := ""
  /-- File size delivered by a successful read. -/
  fileSize : Int := 0
  /-- `last_write_time` ticks string used for the `modified` output. -/
  modifiedTicks : String := "0"

/-- Allow-list shared by `FsBlockExecutor::is_path_allowed` and
`FsGetBlockExecutor::is_path_allowed`. -/
def fsAllowedPathList : List String :=
  ["/tmp/beamline/", "/var/lib/beamline/data/", "./data/"]

/-- `is_path_allowed`: the path must start with one of the allow-listed
directory strings (`path.find(p) == 0`). -/
def is_path_allowed (path : String) : Bool :=
  fsAllowedPathList.any fun p => startsWithStr path p

/-- `FsBlockExecutor::execute_impl` (`fs.blob_put`).  `complete_timeout`
is the snapshot of `FeatureFlags::is_complete_timeout_enabled()`.  The
`try` block is modelled as an `Except`: `Except.error e` carries
`e.what()` of the thrown exception, and the shared `catch` clause maps it
to an error result, upgrading to `permission_denied` when the message
contains "permission" or "Permission". -/
def fs_put_execute_impl (complete_timeout : Bool) (env : FsEnv)
    (req : StepRequest) (ctx : BlockContext) : StepResult :=
  let metadata := metadata_from_context ctx
  if ((req.inputs.lookup "path").isSome && (req.inputs.lookup "content").isSome) = false then
    StepResult.error_result .missing_required_field
      "Missing required inputs: path, content" metadata env.latency
  else
    let path := (req.inputs.lookup "path").getD ""
    let content := (req.inputs.lookup "content").getD ""
    let overwrite := ((req.inputs.lookup "overwrite").getD "") == "true"
    let fs_timeout_ms :=
      let t := get_fs_timeout_ms complete_timeout "write"
      if t = 0 then req.timeout_ms else t
    let attemptOutcome : Except String (List (String × String)) :=
      if is_path_allowed path = false then
        Except.error ("Path not allowed: " ++ path)
      else if (!overwrite && env.pathExists) = true then
        Except.error ("File already exists and overwrite is false: " ++ path)
      else if complete_timeout ∧ 0 < fs_timeout_ms then
        if env.completesWithinTimeout = false then
          Except.error ("FS write operation timeout: exceeded " ++
            toString fs_timeout_ms ++ "ms")
        else if env.opOk = false then Except.error env.opErrMsg
        else Except.ok
          [("path", path), ("size", toString content.length), ("created", env.nowTicks)]
      else
        if env.opOk = false then Except.error env.opErrMsg
        else Except.ok
          [("path", path), ("size", toString content.length), ("created", env.nowTicks)]
    match attemptOutcome with
    | Except.ok outs => StepResult.success metadata outs env.latency
    | Except.error e =>
      let error_msg := "File write error: " ++ e
      let code :=
        if containsSubstr error_msg "permission" ∨ containsSubstr error_msg "Permission"
        then ErrorCode.permission_denied else ErrorCode.execution_failed
      StepResult.error_result code error_msg metadata env.latency

/-- `FsGetBlockExecutor::execute_impl` (`fs.blob_get`).  The missing-file
check runs inside the timed work; the shared `catch` clause upgrades to
`resource_unavailable` when the message contains "not found" or
"Not found". -/
def fs_get_execute_impl (complete_timeout : Bool) (env : FsEnv)
    (req : StepRequest) (ctx : BlockContext) : StepResult :=
  let metadata := metadata_from_context ctx
  if ((req.inputs.lookup "path").isSome) = false then
    StepResult.error_result .missing_required_field
      "Missing required input: path" metadata env.latency
  else
    let path := (req.inputs.lookup "path").getD ""
    let fs_timeout_ms :=
      let t := get_fs_timeout_ms complete_timeout "read"
      if t = 0 then req.timeout_ms else t
    let attemptOutcome : Except String (String × Int) :=
      if is_path_allowed path = false then
        Except.error ("Path not allowed: " ++ path)
      else if complete_timeout ∧ 0 < fs_timeout_ms then
        if env.completesWithinTimeout = false then
          Except.error ("FS read operation timeout: exceeded " ++
            toString fs_timeout_ms ++ "ms")
        else if env.pathExists = false then
          Except.error ("File not found: " ++ path)
        else if env.opOk = false then Except.error env.opErrMsg
        else Except.ok (env.fileContent, env.fileSize)
      else
        if env.pathExists = false then
          Except.error ("File not found: " ++ path)
        else if env.opOk = false then Except.error env.opErrMsg
        else Except.ok (env.fileContent, env.fileSize)
    match attemptOutcome with
    | Except.ok cs =>
      StepResult.success metadata
        [("path", path), ("content", cs.1), ("size", toString cs.2),
         ("modified", env.modifiedTicks)] env.latency
    | Except.error e =>
      let error_msg := "File read error: " ++ e
      let code :=
        if containsSubstr error_msg "not found" ∨ containsSubstr error_msg "Not found"
        then ErrorCode.resource_unavailable else ErrorCode.execution_failed
      StepResult.error_result code error_msg metadata env.latency

/-! ### HTTP block handler, `HttpBlockExecutor` (http translation unit)

The header parse (`nlohmann::json::parse`) and the whole
`perform_http_request` call (curl transport, including the flag-dependent
timeout options set inside it) are abstracted by `HttpEnv`; the input
validation, the 2xx classification, the output construction and the
exception-to-error-code mapping are translated from the source. -/

/-- Environment oracle for one HTTP handler invocation. -/
structure HttpEnv where
  /-- Whether `json::parse(headers_json)` succeeds. -/
  headersParseOk : Bool := true
  /-- Message of the `json::parse_error` when parsing fails. -/
  headersParseErrMsg : String := ""
  /-- Outcome of `perform_http_request`: the thrown message, or the
  response as (status_code, body, headers). -/
  outcome : Except String (Int × String × String) := Except.ok (200, "", "")
  /-- Measured latency stamped on the returned result. -/
  latency : Int := 0

/-- `HttpBlockExecutor::execute_impl` (`http.request`). -/
def http_execute_impl (env : HttpEnv) (req : StepRequest) (ctx : BlockContext) :
    StepResult :=
  let metadata := metadata_from_context ctx
  if ((req.inputs.lookup "url").isSome && (req.inputs.lookup "method").isSome) = false then
    StepResult.error_result .missing_required_field
      "Missing required inputs: url, method" metadata env.latency
  else if env.headersParseOk = false then
    StepResult.error_result .invalid_format
      ("Invalid headers JSON: " ++ env.headersParseErrMsg) metadata env.latency
  else
    match env.outcome with
    | Except.ok resp =>
      let outputs := [("status_code", toString resp.1), ("body", resp.2.1),
                      ("headers", resp.2.2)]
      if 200 ≤ resp.1 ∧ resp.1 < 300 then
        StepResult.success metadata outputs env.latency
      else
        StepResult.error_result .http_error
          ("HTTP request failed with status: " ++ toString resp.1) metadata env.latency
    | Except.error e =>
      let error_msg := "HTTP request exception: " ++ e
      let code :=
        if containsSubstr error_msg "timeout" ∨ containsSubstr error_msg "TIMEOUT"
        then ErrorCode.connection_timeout else ErrorCode.network_error
      StepResult.error_result code error_msg metadata env.latency

/-! ### SQL block handler, `SqlBlockExecutor`, `sql_block.cpp`

The SQLite interaction (open, prepare, step loop) is abstracted by
`SqlEnv`; the input validation, connection selection, row serialization
and the catch clause are translated from the source. -/

/-- Environment oracle for one SQL handler invocation. -/
structure SqlEnv where
  /-- Whether `sqlite3_open` succeeds when a connection is opened. -/
  openOk : Bool := true
  /-- Whether `sqlite3_prepare_v2` succeeds. -/
  prepareOk : Bool := true
  /-- `sqlite3_errmsg` text on prepare failure. -/
  prepareErrMsg : String := ""
  /-- Rows produced by the `sqlite3_step` loop, each a list of
  column-name/value pairs. -/
  stepRows : List (List (String × String)) := []
  /-- Whether the step loop ends with `SQLITE_DONE`. -/
  stepDone : Bool := true
  /-- `sqlite3_errmsg` text when the step loop fails. -/
  stepErrMsg : String := ""
  /-- `sqlite3_changes` for non-SELECT statements. -/
  affectedRows : Int := 0
  /-- Measured latency stamped on the returned result. -/
  latency : Int := 0

/-- Serialization of one row into the simplified JSON object string built
by the stringstream loop of `SqlBlockExecutor::execute_impl`. -/
def sqlRowToJson (row : List (String × String)) : String :=
  "\x7b" ++
    String.intercalate ","
      (row.map fun kv => "\"" ++ kv.1 ++ "\":\"" ++ kv.2 ++ "\"") ++
  "\x7d"

/-- Serialization of the row set into the JSON-array-of-objects string. -/
def sqlRowsToJson (rows : List (List (String × String))) : String :=
  "[" ++ String.intercalate "," (rows.map sqlRowToJson) ++ "]"

/-- `SqlBlockExecutor::execute_impl` (`sql.query`). -/
def sql_execute_impl (env : SqlEnv) (req : StepRequest) (ctx : BlockContext) :
    StepResult :=
  let metadata := metadata_from_context ctx
  if ((req.inputs.lookup "query").isSome) = false then
    StepResult.error_result .missing_required_field
      "Missing required input: query" metadata env.latency
  else
    let connection_string := (req.inputs.lookup "connection").getD ":memory:"
    let attemptOutcome : Except String (List (String × String)) :=
      if (ctx.sandbox = false ∨ connection_string ≠ ":memory:") ∧ env.openOk = false then
        Except.error ("Failed to open database: " ++ connection_string)
      else if env.prepareOk = false then
        Except.error ("Failed to prepare statement: " ++ env.prepareErrMsg)
      else if env.stepDone = false then
        Except.error ("Query execution failed: " ++ env.stepErrMsg)
      else if env.stepRows ≠ [] then
        Except.ok [("rows", sqlRowsToJson env.stepRows),
                   ("row_count", toString env.stepRows.length)]
      else
        Except.ok [("affected_rows", toString env.affectedRows)]
    match attemptOutcome with
    | Except.ok outs => StepResult.success metadata outs env.latency
    | Except.error e =>
      StepResult.error_result .execution_failed
        ("SQL query execution failed: " ++ e) metadata env.latency

/-! ### Human-approval block handler, `HumanBlockExecutor`
(`human_block.cpp`) -/

/-- Environment oracle for one human-approval handler invocation. -/
structure HumanEnv where
  /-- Value of `generate_approval_id()`. -/
  approvalId : String := "approval_1_0"
  /-- `system_clock` ticks string for the timestamp outputs. -/
  nowTicks : String := "0"
  /-- Message of an exception raised inside the `try` block, when one is
  raised (the catch clause of the source). -/
  raiseMsg : Option String := Option.none
  /-- Measured latency; one reading per invocation is modelled. -/
  latency : Int := 0

/-- Model of `std::stoll`: parse an optional-signed decimal prefix after
whitespace; `Option.none` models the thrown `invalid_argument` /
`out_of_range` (no digits, or outside the 64-bit range). -/
def stollParse (s : String) : Option Int :=
  let cs := s.data.dropWhile fun c =>
    c = ' ' ∨ c = '\t' ∨ c = '\n' ∨ c = '\r' ∨ c = '\x0b' ∨ c = '\x0c'
  let signed : Int × List Char :=
    match cs with
    | '-' :: rest => (-1, rest)
    | '+' :: rest => (1, rest)
    | rest => (1, rest)
  let digits := signed.2.takeWhile Char.isDigit
  if digits = [] then Option.none
  else
    let v : Int := signed.1 * digits.foldl (fun acc c => acc * 10 + ((c.toNat : Int) - 48)) 0
    if v < -9223372036854775808 ∨ 9223372036854775807 < v then Option.none else some v

/-- `HumanBlockExecutor::execute_impl` (`human.approval`).  The
`std::stoll` call sits outside the `try` block in the source, so a
parse failure escapes the handler as a raw exception: that path is
modelled as `Option.none`; every returned result is `some`. -/
def human_execute_impl (env : HumanEnv) (req : StepRequest) (ctx : BlockContext) :
    Option StepResult :=
  let metadata := metadata_from_context ctx
  if ((req.inputs.lookup "approval_type").isSome &&
      (req.inputs.lookup "description").isSome) = false then
    some (StepResult.error_result .missing_required_field
      "Missing required inputs: approval_type, description" metadata env.latency)
  else
    match stollParse ((req.inputs.lookup "timeout_seconds").getD "3600") with
    | Option.none => Option.none
    | some timeout_seconds =>
      match env.raiseMsg with
      | some m =>
        some (StepResult.error_result .execution_failed
          ("Human approval error: " ++ m) metadata env.latency)
      | Option.none =>
        if ctx.sandbox then
          some (StepResult.success metadata
            [("approval_id", env.approvalId), ("decision", "approved"),
             ("approved_by", "sandbox_user"), ("approved_at", env.nowTicks),
             ("reason", "Sandbox approval")] env.latency)
        else if timeout_seconds * 1000 < env.latency then
          some (StepResult.timeout_result metadata env.latency)
        else
          some (StepResult.success metadata
            [("approval_id", env.approvalId), ("status", "pending"),
             ("message", "Approval request submitted. Waiting for human approval."),
             ("timeout_seconds", toString timeout_seconds)] env.latency)

/-! ### Sandbox validation, `sandbox.cpp` -/

/-- The destructive-SQL keyword list of
`Sandbox::validate_sandbox_request`. -/
def forbidden_keywords : List String :=
  ["DROP", "DELETE", "TRUNCATE", "ALTER", "CREATE", "GRANT", "REVOKE"]

/-- Uppercase a string character by character
(`std::transform(..., ::toupper)`, ASCII). -/
def toUpperStr (s : String) : String := String.mk (s.data.map Char.toUpper)

/-- `Sandbox::validate_sandbox_request`: `true` models `caf::unit`
(request allowed), `false` models the `caf::make_error` returns
(request rejected).  The SQL check uppercases the query and rejects when
any forbidden keyword occurs anywhere as a substring
(`upper_query.find(keyword) != std::string::npos`). -/
def validate_sandbox_request (req : StepRequest) : Bool :=
  let urlForbidden : Bool :=
    match req.inputs.lookup "url" with
    | some url => startsWithStr url "file://" || startsWithStr url "ftp://"
    | Option.none => false
  let queryForbidden : Bool :=
    match req.inputs.lookup "query" with
    | some q => forbidden_keywords.any fun kw => containsSubstr (toUpperStr q) kw
    | Option.none => false
  if startsWithStr req.type "exec." || startsWithStr req.type "system." then false
  else if req.type == "http.request" && urlForbidden then false
  else if req.type == "sql.query" && queryForbidden then false
  else true

/-- Whole-word occurrence of `needle` in `hay` (spec-side notion for
claim C6): an occurrence of `needle` in `hay` whose neighbouring
characters, when present, are not identifier characters
(letters, digits or underscore). -/
def isWordChar (c : Char) : Bool := c.isAlphanum || c = '_'

/-- Boundary check for the character following a candidate whole-word
occurrence. -/
def wordBoundaryAfter : List Char → Bool
  | [] => true
  | c :: _ => isWordChar c = false

/-- Scan helper for `containsWholeWord`: `prevIsWord` records whether the
character immediately before the scan position is an identifier
character. -/
def containsWholeWordAux (needle : List Char) : Bool → List Char → Bool
  | _, [] => false
  | prevIsWord, c :: rest =>
    (prevIsWord = false && isPrefixOfChars needle (c :: rest) &&
      wordBoundaryAfter ((c :: rest).drop needle.length)) ||
    containsWholeWordAux needle (isWordChar c) rest

/-- Whole-word (case-sensitive) substring test, used to state the
spec-side reading of the C6 sandbox-SQL claim. -/
def containsWholeWord (hay needle : String) : Bool :=
  containsWholeWordAux needle.data false hay.data

/-! ### PII filter, `observability.cpp` -/

/-- The `PII_FIELDS` list of `observability.cpp`. -/
def PII_FIELDS : List String :=
  ["password", "api_key", "secret", "token", "access_token",
   "refresh_token", "authorization", "credit_card", "ssn",
   "email", "phone"]

/-- `is_pii_field`: lowercase the field name, then test equality with or
containment of any `PII_FIELDS` entry. -/
def is_pii_field (field_name : String) : Bool :=
  let lower_field := String.mk (field_name.data.map Char.toLower)
  PII_FIELDS.any fun p => lower_field == p || containsSubstr lower_field p

/-- JSON value tree (the fragment of `nlohmann::json` the PII filter
distinguishes: objects, arrays, and scalar leaves). -/
inductive Json where
  | null : Json
  | bool : Bool → Json
  | num : Int → Json
  | str : String → Json
  | arr : List Json → Json
  | obj : List (String × Json) → Json

mutual

/-- `filter_pii_recursive`, `observability.cpp`: in an object, a field
with a PII name has its value replaced by the literal `"[REDACTED]"`, and
the object/array value of any other field is filtered recursively (scalars are
left unchanged, which recursing unconditionally also yields); array items
that are objects/arrays are filtered recursively; scalars are returned
unchanged. -/
def filter_pii_recursive : Json → Json
  | .obj kvs => .obj (filterPiiEntries kvs)
  | .arr xs => .arr (filterPiiElems xs)
  | j => j

/-- Per-item loop of `filter_pii_recursive` over an array. -/
def filterPiiElems : List Json → List Json
  | [] => []
  | x :: xs => filter_pii_recursive x :: filterPiiElems xs

/-- Per-field loop of `filter_pii_recursive` over an object. -/
def filterPiiEntries : List (String × Json) → List (String × Json)
  | [] => []
  | kv :: rest =>
    (if is_pii_field kv.1 then (kv.1, Json.str "[REDACTED]")
     else (kv.1, filter_pii_recursive kv.2)) :: filterPiiEntries rest

end

/-! ## Theorems -/

/-- Truncation is the identity on non-negative values below `2 ^ 63`. -/
theorem wrap64_eq_self (x : Int) (h0 : 0 ≤ x) (h1 : x < 2 ^ 63) : wrap64 x = x := by
  have h63 : (2 : Int) ^ 63 = 9223372036854775808 := by norm_num
  have h64 : (2 : Int) ^ 64 = 18446744073709551616 := by norm_num
  unfold wrap64
  rw [h63, h64] at *
  rw [Int.emod_eq_of_lt (by omega) (by omega)]
  omega

/-- Claim C10: the status-to-wire-string mapping round-trips exactly
(`string_to_status (status_to_string s) = s` for every `StepStatus`), and
`string_to_status` maps every string other than "success", "error",
"timeout", "cancelled" to `StepStatus.error`. -/
theorem c10_status_round_trip :
    (∀ s : StepStatus, string_to_status (status_to_string s) = s) ∧
    (∀ str : String, str ≠ "success" → str ≠ "error" → str ≠ "timeout" →
      str ≠ "cancelled" → string_to_status str = StepStatus.error) := by
  constructor
  · intro s
    cases s <;> rfl
  · intro str h1 h2 h3 h4
    simp [string_to_status, h1, h2, h3, h4]

/-- Witness for C10: the unknown status string "bogus" maps to
`StepStatus.error`. -/
theorem c10_status_round_trip_witness :
    ("bogus" ≠ "success" ∧ "bogus" ≠ "error" ∧ "bogus" ≠ "timeout" ∧
      "bogus" ≠ "cancelled") ∧ string_to_status "bogus" = StepStatus.error :=
  ⟨by decide,
   c10_status_round_trip.2 "bogus" (by decide) (by decide) (by decide) (by decide)⟩

/-- Counterexample to claim C4: a result with `status = timeout` and
`error_code = none` passes `validate_result` although it violates the
section 3 invariants (`timeout ⇒ error_code = cancelled_by_timeout`,
`timeout ⇒ error_code ≠ none`). -/
theorem c4_validate_result_counterexample :
    validate_result { status := .timeout } = true ∧
    spec_step_result_invariants { status := .timeout } = false := by decide

/-- Claim C4 (amended): `validate_result r` returns true iff
`status = ok → error_code = none`, `status = error → error_code ≠ none`
and `latency_ms ≥ 0`; the timeout- and cancelled-specific invariants of
section 3 are not checked. -/
theorem c4_validate_result_amended (r : StepResult) :
    validate_result r = true ↔
      ((r.status = .ok → r.error_code = .none) ∧
       (r.status = .error → r.error_code ≠ .none) ∧ 0 ≤ r.latency_ms) := by
  unfold validate_result
  split_ifs with h1 h2 h3 <;> simp_all

/-- Counterexample to claim C6: the query "SELECT created_at FROM t"
contains no forbidden verb as a whole word (CREATE occurs only inside the
identifier created_at), yet `validate_sandbox_request` rejects it,
because the source checks `upper_query.find(keyword) != npos`, a plain
substring match. -/
theorem c6_sandbox_sql_counterexample :
    validate_sandbox_request
      { type := "sql.query", inputs := [("query", "SELECT created_at FROM t")] } = false ∧
    (forbidden_keywords.all fun kw =>
      !(containsWholeWord (toUpperStr "SELECT created_at FROM t") kw)) = true := by
  decide

/-- Claim C6 (amended): in sandbox mode a `sql.query` request is rejected
iff its uppercased query contains one of DROP, DELETE, TRUNCATE, ALTER,
CREATE, GRANT, REVOKE as a substring at any position (case-insensitive,
but not restricted to whole words). -/
theorem c6_sandbox_sql_amended (q : String) :
    validate_sandbox_request { type := "sql.query", inputs := [("query", q)] } = false ↔
      (forbidden_keywords.any fun kw => containsSubstr (toUpperStr q) kw) = true := by
  cases h : forbidden_keywords.any fun kw => containsSubstr (toUpperStr q) kw <;>
    simp [validate_sandbox_request, List.lookup, h, startsWithStr, isPrefixOfChars]

/-- Claim C3 (code bug): a submit that arrives while the pool is at
capacity and the queue has room leaves the pool state unchanged and drops
the request (the enqueue push is commented out in the source), and a
submit that arrives under capacity increments the load but dispatches
nothing (the dispatched list of `process_pending` is empty because the
queue can never hold anything), contradicting the claim that the request
is dispatched immediately or appended to the pending FIFO queue. -/
theorem c3_pool_submit_drops_request :
    pool_submit true
      { current_load := 1, pending_requests := [], max_concurrency := 1,
        max_queue_size := 1000 } { type := "http.request" } =
      ({ current_load := 1, pending_requests := [], max_concurrency := 1,
         max_queue_size := 1000 }, PoolSubmitOutcome.notEnqueued) ∧
    pool_submit true
      { current_load := 0, pending_requests := [], max_concurrency := 4,
        max_queue_size := 1000 } { type := "http.request" } =
      ({ current_load := 1, pending_requests := [], max_concurrency := 4,
         max_queue_size := 1000 }, PoolSubmitOutcome.started []) := by decide

/-- Claim C1 (code bug): when every handler invocation fails with a raw
caf error, `execute_with_retry` returns the default-constructed
`StepResult` with `status = ok` and `error_code = none`, not an
`error_result` with `execution_failed` — the conversion branch in the
source is guarded by `!is_retryable(network_error, 0)`, which is never
true (with the advanced-retry flag on, `network_error` is classified
retryable; with it off, everything is). -/
theorem c1_raw_failures_yield_default_ok_result :
    (execute_with_retry true
        { type := "step.test", timeout_ms := 30000, retry_count := 2 }
        { attemptResult := fun _ => Option.none, attemptDuration := fun _ => 0 }) =
      ({} : StepResult) ∧
    (execute_with_retry false
        { type := "step.test", timeout_ms := 30000, retry_count := 2 }
        { attemptResult := fun _ => Option.none, attemptDuration := fun _ => 0 }).status =
      StepStatus.ok := by decide

/-- Counterexample to claim C5: with the retry configuration of the executor
(base 100 ms, cap 5000 ms), `calculate_backoff_delay` at attempt 57
differs from `min(base · 2^attempt, max_delay_ms)` because the 64-bit
product wraps to a negative value, and monotonicity fails between
attempts 56 and 57. -/
theorem c5_backoff_overflow_counterexample :
    calculate_backoff_delay true {} 57 ≠ min ((100 : Int) * 2 ^ 57) 5000 ∧
    ¬ (calculate_backoff_delay true {} 56 ≤ calculate_backoff_delay true {} 57) := by
  decide

/-- Claim C5 (amended): with the advanced-retry flag on, for attempts
`a ≤ b` such that the shift and the product stay within `int64_t`
(`b ≤ 62` and `base_delay_ms · 2^b < 2^63`, with a non-negative base),
the backoff is `min(base · 2^attempt, max_delay_ms)`, monotonically
non-decreasing, and bounded above by `max_delay_ms`; outside that range
the 64-bit product wraps and monotonicity fails (see the
counterexample). -/
theorem c5_backoff_monotone_bounded (cfg : RetryConfig) (a b : Nat)
    (hbase : 0 ≤ cfg.base_delay_ms) (hab : a ≤ b) (hb : b ≤ 62)
    (hof : cfg.base_delay_ms * 2 ^ b < 2 ^ 63) :
    calculate_backoff_delay true cfg a = min (cfg.base_delay_ms * 2 ^ a) cfg.max_delay_ms ∧
    calculate_backoff_delay true cfg b = min (cfg.base_delay_ms * 2 ^ b) cfg.max_delay_ms ∧
    calculate_backoff_delay true cfg a ≤ calculate_backoff_delay true cfg b ∧
    calculate_backoff_delay true cfg b ≤ cfg.max_delay_ms := by
  have h2a : (0 : Int) ≤ 2 ^ a := by positivity
  have h2b : (0 : Int) ≤ 2 ^ b := by positivity
  have hpow : (2 : Int) ^ a ≤ 2 ^ b := pow_le_pow_right₀ (by norm_num) hab
  have h2b63 : (2 : Int) ^ b < 2 ^ 63 := by
    calc (2 : Int) ^ b ≤ 2 ^ 62 := pow_le_pow_right₀ (by norm_num) hb
    _ < 2 ^ 63 := by norm_num
  have hma : cfg.base_delay_ms * 2 ^ a ≤ cfg.base_delay_ms * 2 ^ b :=
    mul_le_mul_of_nonneg_left hpow hbase
  have hwa : wrap64 ((2 : Int) ^ a) = 2 ^ a :=
    wrap64_eq_self _ h2a (lt_of_le_of_lt hpow h2b63)
  have hwb : wrap64 ((2 : Int) ^ b) = 2 ^ b := wrap64_eq_self _ h2b h2b63
  have hwma : wrap64 (cfg.base_delay_ms * 2 ^ a) = cfg.base_delay_ms * 2 ^ a :=
    wrap64_eq_self _ (mul_nonneg hbase h2a) (lt_of_le_of_lt hma hof)
  have hwmb : wrap64 (cfg.base_delay_ms * 2 ^ b) = cfg.base_delay_ms * 2 ^ b :=
    wrap64_eq_self _ (mul_nonneg hbase h2b) hof
  unfold calculate_backoff_delay
  simp only [Bool.true_eq_false, if_false, hwa, hwb, hwma, hwmb]
  exact ⟨trivial, trivial, min_le_min hma le_rfl, min_le_right _ _⟩

/-- Witness for C5: the amended equality, monotonicity and boundedness at
attempts 3 and 5 with the default executor configuration. -/
theorem c5_backoff_monotone_bounded_witness :
    ((0 : Int) ≤ ({} : RetryConfig).base_delay_ms ∧ 3 ≤ 5 ∧ 5 ≤ 62 ∧
      ({} : RetryConfig).base_delay_ms * 2 ^ 5 < 2 ^ 63) ∧
    (calculate_backoff_delay true {} 3 =
        min (({} : RetryConfig).base_delay_ms * 2 ^ 3) ({} : RetryConfig).max_delay_ms ∧
      calculate_backoff_delay true {} 5 =
        min (({} : RetryConfig).base_delay_ms * 2 ^ 5) ({} : RetryConfig).max_delay_ms ∧
      calculate_backoff_delay true {} 3 ≤ calculate_backoff_delay true {} 5 ∧
      calculate_backoff_delay true {} 5 ≤ ({} : RetryConfig).max_delay_ms) :=
  ⟨by decide,
   c5_backoff_monotone_bounded {} 3 5 (by decide) (by decide) (by decide) (by decide)⟩

/-- Counterexample to claim C2: with the complete-timeout flag on and the
write/read work exceeding its per-operation deadline, both FS handlers
return an error result with `error_code = execution_failed` (the timeout
is thrown as a `runtime_error` and recovered by the generic catch
clause), not a `timeout_result` with status `timeout` and
`cancelled_by_timeout`. -/
theorem c2_fs_timeout_counterexample :
    (fs_put_execute_impl true { completesWithinTimeout := false }
        { type := "fs.blob_put",
          inputs := [("path", "/tmp/beamline/a.txt"), ("content", "x")] } {}).status =
      StepStatus.error ∧
    (fs_put_execute_impl true { completesWithinTimeout := false }
        { type := "fs.blob_put",
          inputs := [("path", "/tmp/beamline/a.txt"), ("content", "x")] } {}).error_code =
      ErrorCode.execution_failed ∧
    (fs_get_execute_impl true { completesWithinTimeout := false }
        { type := "fs.blob_get", inputs := [("path", "/tmp/beamline/a.txt")] } {}).status =
      StepStatus.error ∧
    (fs_get_execute_impl true { completesWithinTimeout := false }
        { type := "fs.blob_get", inputs := [("path", "/tmp/beamline/a.txt")] } {}).error_code =
      ErrorCode.execution_failed := by decide

/-- Claim C2 (amended): with the complete-timeout flag on, when the
`fs.blob_put` write (per-op timeout 10000 ms) or the `fs.blob_get` read
(per-op timeout 5000 ms) does not finish within its deadline, the handler
returns `error_result(execution_failed, "File write/read error: FS
write/read operation timeout: exceeded <timeout>ms")` with the metadata of
the context — not a `timeout_result`. -/
theorem c2_fs_timeout_amended (envP envG : FsEnv) (reqP reqG : StepRequest)
    (ctxP ctxG : BlockContext) (p c g : String)
    (hp : reqP.inputs.lookup "path" = some p)
    (hc : reqP.inputs.lookup "content" = some c)
    (hap : is_path_allowed p = true)
    (hov : (reqP.inputs.lookup "overwrite").getD "" = "true" ∨ envP.pathExists = false)
    (htp : envP.completesWithinTimeout = false)
    (hg : reqG.inputs.lookup "path" = some g)
    (hag : is_path_allowed g = true)
    (htg : envG.completesWithinTimeout = false) :
    fs_put_execute_impl true envP reqP ctxP =
      StepResult.error_result .execution_failed
        "File write error: FS write operation timeout: exceeded 10000ms"
        (metadata_from_context ctxP) envP.latency ∧
    fs_get_execute_impl true envG reqG ctxG =
      StepResult.error_result .execution_failed
        "File read error: FS read operation timeout: exceeded 5000ms"
        (metadata_from_context ctxG) envG.latency := by
  have htts : toString (10000 : Int) = "10000" := rfl
  have httf : toString (5000 : Int) = "5000" := rfl
  constructor
  · unfold fs_put_execute_impl
    rw [hp, hc]
    have hten : get_fs_timeout_ms true "write" = 10000 := by decide
    rcases hov with hov | hov <;>
      simp [hten, hap, hov, htp, htts, containsSubstr, containsChars, isPrefixOfChars]
  · unfold fs_get_execute_impl
    rw [hg]
    have hfive : get_fs_timeout_ms true "read" = 5000 := by decide
    simp [hfive, hag, htg, httf, containsSubstr, containsChars, isPrefixOfChars]

/-- Witness for C2: the amended statement applied to a concrete request
writing and reading under `/tmp/beamline/` whose timed work misses its
deadline. -/
theorem c2_fs_timeout_amended_witness :
    (List.lookup "path" [("path", "/tmp/beamline/a.txt"), ("content", "x")] =
        some "/tmp/beamline/a.txt" ∧
      is_path_allowed "/tmp/beamline/a.txt" = true ∧
      ({ completesWithinTimeout := false } : FsEnv).completesWithinTimeout = false) ∧
    (fs_put_execute_impl true { completesWithinTimeout := false }
        { type := "fs.blob_put",
          inputs := [("path", "/tmp/beamline/a.txt"), ("content", "x")] } {} =
      StepResult.error_result .execution_failed
        "File write error: FS write operation timeout: exceeded 10000ms"
        (metadata_from_context {})
        ({ completesWithinTimeout := false } : FsEnv).latency ∧
      fs_get_execute_impl true { completesWithinTimeout := false }
        { type := "fs.blob_get", inputs := [("path", "/tmp/beamline/a.txt")] } {} =
      StepResult.error_result .execution_failed
        "File read error: FS read operation timeout: exceeded 5000ms"
        (metadata_from_context {})
        ({ completesWithinTimeout := false } : FsEnv).latency) :=
  ⟨⟨by decide, by decide, by decide⟩,
   c2_fs_timeout_amended
     { completesWithinTimeout := false } { completesWithinTimeout := false }
     { type := "fs.blob_put",
       inputs := [("path", "/tmp/beamline/a.txt"), ("content", "x")] }
     { type := "fs.blob_get", inputs := [("path", "/tmp/beamline/a.txt")] }
     {} {} "/tmp/beamline/a.txt" "x" "/tmp/beamline/a.txt"
     (by decide) (by decide) (by decide) (Or.inr (by decide)) (by decide)
     (by decide) (by decide) (by decide)⟩

/-- Counterexample to claim C7: when the retry budget is exhausted (here
`timeout_ms = 0`), the timeout result built by `execute_with_retry`
carries the default-constructed, all-empty metadata, not the correlation
IDs of the context of the step. -/
theorem c7_metadata_counterexample :
    (execute_with_retry true { type := "step.test", timeout_ms := 0, retry_count := 3 }
        { attemptResult := fun _ => Option.none, attemptDuration := fun _ => 0 }).metadata ≠
      metadata_from_context
        { tenant_id := "tenant-1", trace_id := "trace-1", run_id := "run-1",
          flow_id := "flow-1", step_id := "step-1" } := by decide

/-- Metadata invariant of the executor retry loop: the loop never
populates metadata itself — the metadata of its result is the metadata of
the `final_result` it was entered with, or the metadata of a handler
result delivered by some attempt. -/
theorem executeWithRetryLoop_metadata (adv : Bool) (req : StepRequest)
    (cfg : RetryConfig) (env : ExecEnv) :
    ∀ (fuel attempt : Nat) (elapsed : Int) (fr : StepResult) (hs : Int),
      (fr.metadata = ({} : ResultMetadata) ∨
        ∃ i r, env.attemptResult i = some r ∧ fr.metadata = r.metadata) →
      ((executeWithRetryLoop adv req cfg env fuel attempt elapsed fr hs).metadata =
          ({} : ResultMetadata) ∨
        ∃ i r, env.attemptResult i = some r ∧
          (executeWithRetryLoop adv req cfg env fuel attempt elapsed fr hs).metadata =
            r.metadata) := by
  intro fuel
  induction fuel with
  | zero =>
    intro attempt elapsed fr hs h
    simpa only [executeWithRetryLoop] using h
  | succ n ih =>
    intro attempt elapsed fr hs h
    simp only [executeWithRetryLoop]
    split
    · exact h
    · cases hr : env.attemptResult attempt with
      | none =>
        simp only [hr]
        repeat' split
        all_goals first
          | exact ih _ _ _ _ h
          | exact h
      | some r =>
        simp only [hr]
        repeat' split
        all_goals first
          | exact ih _ _ _ _ (Or.inr ⟨attempt, r, hr, rfl⟩)
          | exact Or.inr ⟨attempt, r, hr, rfl⟩

/-- Claim C7 (amended): every `StepResult` returned by a block handler
carries metadata equal field-for-field to `metadata_from_context(ctx)` —
proved for all five handlers (`http.request`, `fs.blob_put`,
`fs.blob_get`, `sql.query`, `human.approval`) on every return path.  The
timeout result the executor builds when the retry budget is exhausted is
never freshly populated from the context: its metadata is that of the
local `final_result` at the moment of exhaustion, i.e. the
default-constructed all-empty metadata when no handler result has been
stored (exhaustion before the first attempt, or after only raw
failures), and the metadata of a handler result from an earlier attempt
otherwise.  The last conjunct exhibits the stored case concretely: with
`timeout_ms = 1000` and attempt 0 returning a retryable error carrying
metadata after 950 ms, exhaustion at the backoff check returns the
timeout result carrying that metadata. -/
theorem c7_metadata_amended :
    (∀ (ct : Bool) (env : FsEnv) (req : StepRequest) (ctx : BlockContext),
      (fs_put_execute_impl ct env req ctx).metadata = metadata_from_context ctx) ∧
    (∀ (ct : Bool) (env : FsEnv) (req : StepRequest) (ctx : BlockContext),
      (fs_get_execute_impl ct env req ctx).metadata = metadata_from_context ctx) ∧
    (∀ (env : HttpEnv) (req : StepRequest) (ctx : BlockContext),
      (http_execute_impl env req ctx).metadata = metadata_from_context ctx) ∧
    (∀ (env : SqlEnv) (req : StepRequest) (ctx : BlockContext),
      (sql_execute_impl env req ctx).metadata = metadata_from_context ctx) ∧
    (∀ (env : HumanEnv) (req : StepRequest) (ctx : BlockContext) (res : StepResult),
      human_execute_impl env req ctx = some res →
        res.metadata = metadata_from_context ctx) ∧
    (∀ (adv : Bool) (req : StepRequest) (env : ExecEnv),
      (execute_with_retry adv req env).metadata = ({} : ResultMetadata) ∨
        ∃ i r, env.attemptResult i = some r ∧
          (execute_with_retry adv req env).metadata = r.metadata) ∧
    execute_with_retry true { type := "step.test", timeout_ms := 1000, retry_count := 3 }
        { attemptResult := fun _ => some
            { status := .error, error_code := .network_error,
              metadata := { trace_id := "trace-1", run_id := "run-1", flow_id := "flow-1",
                            step_id := "step-1", tenant_id := "tenant-1" } },
          attemptDuration := fun _ => 950 } =
      { status := .timeout, error_code := .cancelled_by_timeout,
        error_message := "Retry budget exhausted: backoff delay would exceed total timeout",
        metadata := { trace_id := "trace-1", run_id := "run-1", flow_id := "flow-1",
                      step_id := "step-1", tenant_id := "tenant-1" },
        latency_ms := 950, retries_used := 0 } := by
  refine ⟨?_, ?_, ?_, ?_, ?_, ?_, ?_⟩
  · intro ct env req ctx
    unfold fs_put_execute_impl
    dsimp only
    split
    · rfl
    · split <;> rfl
  · intro ct env req ctx
    unfold fs_get_execute_impl
    dsimp only
    split
    · rfl
    · split <;> rfl
  · intro env req ctx
    unfold http_execute_impl
    dsimp only
    split
    · rfl
    · split
      · rfl
      · split
        · split <;> rfl
        · rfl
  · intro env req ctx
    unfold sql_execute_impl
    dsimp only
    split
    · rfl
    · split <;> rfl
  · intro env req ctx res h
    unfold human_execute_impl at h
    dsimp only at h
    split at h
    · cases h
      rfl
    · split at h
      · exact Option.noConfusion h
      · split at h
        · cases h
          rfl
        · split at h
          · cases h
            rfl
          · split at h <;> (cases h; rfl)
  · intro adv req env
    unfold execute_with_retry
    dsimp only
    exact executeWithRetryLoop_metadata adv req (retryConfigFor req) env
      ((retryConfigFor req).max_retries + 1).toNat 0 0 {} 0 (Or.inl rfl)
  · decide

/-- Witness for C7: the human-approval clause applied to a concrete
request missing its required inputs, whose returned error result carries
the context metadata. -/
theorem c7_metadata_amended_witness :
    human_execute_impl {} { type := "human.approval" } {} =
      some (StepResult.error_result .missing_required_field
        "Missing required inputs: approval_type, description"
        (metadata_from_context {}) 0) ∧
    (StepResult.error_result .missing_required_field
        "Missing required inputs: approval_type, description"
        (metadata_from_context {}) 0).metadata =
      metadata_from_context ({} : BlockContext) :=
  ⟨by decide,
   c7_metadata_amended.2.2.2.2.1 {} { type := "human.approval" } {}
     (StepResult.error_result .missing_required_field
       "Missing required inputs: approval_type, description"
       (metadata_from_context {}) 0)
     (by decide)⟩

set_option maxHeartbeats 1600000 in
/-- Claim C8: for every `StepResult`, the wire record contains exactly
the always-present keys `version` (value "1"), `assignment_id`,
`request_id`, `status`, `provider_id`, `job`, `latency_ms` and `cost`
(value "0.0"); `trace_id`, `run_id`, `tenant_id` each iff the
corresponding metadata field is non-empty; `error_code` iff the status is
`error`; and `error_message` iff the status is `error` and the message is
non-empty — and no other keys. -/
theorem c8_wire_record_keys (r : StepResult) (aid rid pid jt : String) :
    (to_exec_result_json r aid rid pid jt).lookup "version" = some "1" ∧
    (to_exec_result_json r aid rid pid jt).lookup "cost" = some "0.0" ∧
    ∀ k : String, (∃ v, (k, v) ∈ to_exec_result_json r aid rid pid jt) ↔
      (k = "version" ∨ k = "assignment_id" ∨ k = "request_id" ∨ k = "status" ∨
       k = "provider_id" ∨ k = "job" ∨ k = "latency_ms" ∨ k = "cost" ∨
       (k = "trace_id" ∧ r.metadata.trace_id ≠ "") ∨
       (k = "run_id" ∧ r.metadata.run_id ≠ "") ∨
       (k = "tenant_id" ∧ r.metadata.tenant_id ≠ "") ∨
       (k = "error_code" ∧ r.status = .error) ∨
       (k = "error_message" ∧ r.status = .error ∧ r.error_message ≠ "")) := by
  refine ⟨?_, ?_, ?_⟩
  · simp [to_exec_result_json, List.lookup, List.cons_append, List.nil_append]
  · simp [to_exec_result_json, List.lookup, List.cons_append, List.nil_append]
  intro k
  by_cases h1 : r.metadata.trace_id = "" <;> by_cases h2 : r.metadata.run_id = "" <;>
    by_cases h3 : r.metadata.tenant_id = "" <;>
    by_cases h4 : r.status = StepStatus.error <;>
    by_cases h5 : r.error_message = "" <;>
    simp [to_exec_result_json, h1, h2, h3, h4, h5] <;>
    aesop

/-- The object loop of the PII filter maps each entry: PII-named fields
get the literal "[REDACTED]", other fields are filtered recursively. -/
theorem filterPiiEntries_eq_map (kvs : List (String × Json)) :
    filterPiiEntries kvs = kvs.map fun kv =>
      if is_pii_field kv.1 then (kv.1, Json.str "[REDACTED]")
      else (kv.1, filter_pii_recursive kv.2) := by
  induction kvs with
  | nil => simp [filterPiiEntries]
  | cons kv rest ih => simp [filterPiiEntries, ih]

/-- The array loop of the PII filter maps the filter over the items. -/
theorem filterPiiElems_eq_map (xs : List Json) :
    filterPiiElems xs = xs.map filter_pii_recursive := by
  induction xs with
  | nil => simp [filterPiiElems]
  | cons x xs ih => simp [filterPiiElems, ih]

/-- Idempotence of the array loop, given idempotence of the filter on
every element of bounded size. -/
theorem filterPiiElems_idem_of (n : Nat)
    (ih : ∀ j : Json, sizeOf j ≤ n →
      filter_pii_recursive (filter_pii_recursive j) = filter_pii_recursive j) :
    ∀ xs : List Json, (∀ x ∈ xs, sizeOf x ≤ n) →
      filterPiiElems (filterPiiElems xs) = filterPiiElems xs := by
  intro xs
  induction xs with
  | nil => intro _; simp [filterPiiElems]
  | cons y ys ihy =>
    intro h
    simp only [filterPiiElems, List.cons.injEq]
    constructor
    · exact ih y (h y (List.mem_cons_self y ys))
    · exact ihy fun x hx => h x (List.mem_cons_of_mem y hx)

/-- Idempotence of the object loop, given idempotence of the filter on
every entry value of bounded size. -/
theorem filterPiiEntries_idem_of (n : Nat)
    (ih : ∀ j : Json, sizeOf j ≤ n →
      filter_pii_recursive (filter_pii_recursive j) = filter_pii_recursive j) :
    ∀ kvs : List (String × Json), (∀ kv ∈ kvs, sizeOf kv.2 ≤ n) →
      filterPiiEntries (filterPiiEntries kvs) = filterPiiEntries kvs := by
  intro kvs
  induction kvs with
  | nil => intro _; simp [filterPiiEntries]
  | cons kv rest ihr =>
    intro h
    cases hp : is_pii_field kv.1 with
    | false =>
      simp only [filterPiiEntries, hp, Bool.false_eq_true, if_false, List.cons.injEq,
        Prod.mk.injEq, true_and]
      exact ⟨ih kv.2 (h kv (List.mem_cons_self kv rest)),
        ihr fun e he => h e (List.mem_cons_of_mem kv he)⟩
    | true =>
      simp only [filterPiiEntries, hp, if_true, List.cons.injEq]
      exact ⟨trivial, ihr fun e he => h e (List.mem_cons_of_mem kv he)⟩

/-- Idempotence of the PII filter on trees of bounded size (strong
induction on `sizeOf`). -/
theorem filter_pii_idem_sized :
    ∀ n : Nat, ∀ j : Json, sizeOf j ≤ n →
      filter_pii_recursive (filter_pii_recursive j) = filter_pii_recursive j := by
  intro n
  induction n with
  | zero =>
    intro j h
    cases j <;> simp at h
  | succ n ih =>
    intro j h
    cases j with
    | null => simp [filter_pii_recursive]
    | bool b => simp [filter_pii_recursive]
    | num m => simp [filter_pii_recursive]
    | str s => simp [filter_pii_recursive]
    | arr xs =>
      have hsz : ∀ x ∈ xs, sizeOf x ≤ n := by
        intro x hx
        have h1 := List.sizeOf_lt_of_mem hx
        simp only [Json.arr.sizeOf_spec] at h
        omega
      simp [filter_pii_recursive, filterPiiElems_idem_of n ih xs hsz]
    | obj kvs =>
      have hsz : ∀ kv ∈ kvs, sizeOf kv.2 ≤ n := by
        intro kv hkv
        have h1 := List.sizeOf_lt_of_mem hkv
        have h2 : sizeOf kv = 1 + sizeOf kv.1 + sizeOf kv.2 := by
          cases kv
          simp
        simp only [Json.obj.sizeOf_spec] at h
        omega
      simp [filter_pii_recursive, filterPiiEntries_idem_of n ih kvs hsz]

/-- Claim C9: the recursive PII filter replaces the value of every field
whose lowercased name equals or contains a sensitive substring with the
literal "[REDACTED]", recurses through nested objects and arrays, and is
idempotent: applying it twice yields exactly the tree obtained by
applying it once. -/
theorem c9_pii_filter_redacts_and_idempotent :
    (∀ kvs : List (String × Json), filter_pii_recursive (Json.obj kvs) =
      Json.obj (kvs.map fun kv =>
        if is_pii_field kv.1 then (kv.1, Json.str "[REDACTED]")
        else (kv.1, filter_pii_recursive kv.2))) ∧
    (∀ xs : List Json, filter_pii_recursive (Json.arr xs) =
      Json.arr (xs.map filter_pii_recursive)) ∧
    (∀ j : Json, filter_pii_recursive (filter_pii_recursive j) = filter_pii_recursive j) := by
  refine ⟨?_, ?_, ?_⟩
  · intro kvs
    simp [filter_pii_recursive, filterPiiEntries_eq_map]
  · intro xs
    simp [filter_pii_recursive, filterPiiElems_eq_map]
  · intro j
    exact filter_pii_idem_sized (sizeOf j) j le_rfl

end BeamlineWorker
